import Mathlib

set_option maxRecDepth 40000

/-!
# Verification of `maoxuli/camerascalib` (`src/camerascalib.cpp`)

A shallow embedding of the two components owned by this repository:

* the GStreamer pipeline descriptor builder `create_capture`
  (src/camerascalib.cpp lines 65-76), and
* the capture/control loop of `main` (lines 84-214), modelled as an
  event-trace-producing function over an external environment
  (camera-open outcomes, per-iteration keystrokes, the SIGINT stop flag).

All external collaborators (OpenCV capture, the `videostitcher::CamerasCalib`
library, the display subsystem) are opaque: the embedding records the calls
made to them as events, in the order the source performs them, and no more.
-/

/-! ## Decimal rendering of integers, as `std::to_string` produces it

`std::to_string(int)` renders the decimal digits, preceded by `'-'` for
negative values.  The digit recursion is fuel-indexed so that it is
structural (hence reduces inside the kernel); `natDigits_eq` recovers the
natural recursion. -/

/-- Fuel-indexed big-endian decimal digit list of a natural number. -/
def natDigitsAux : Nat → Nat → List Char
  | 0, _ => []
  | fuel + 1, n =>
    if n < 10 then [Nat.digitChar n]
    else natDigitsAux fuel (n / 10) ++ [Nat.digitChar (n % 10)]

/-- Big-endian decimal digit list of a natural number, e.g. `1280 ↦ "1280"`. -/
def natDigits (n : Nat) : List Char := natDigitsAux (n + 1) n

/-- The decimal rendering of an `Int`, mirroring `std::to_string(int)`. -/
def intToString (n : Int) : String :=
  if n < 0 then ⟨'-' :: natDigits n.natAbs⟩ else ⟨natDigits n.natAbs⟩

/-- `create_capture` (src/camerascalib.cpp:65-76): renders the GStreamer
pipeline descriptor for one CSI camera.  The C++ builds the string through a
`stringstream`; the pieces and their order are reproduced verbatim. -/
def create_capture (camera width height fps : Int) : String :=
  "nvarguscamerasrc sensor-id=" ++ intToString camera
    ++ " ! video/x-raw(memory:NVMM), width=(int)" ++ intToString width
    ++ ", height=(int)" ++ intToString height
    ++ ", format=(string)NV12, framerate=(fraction)" ++ intToString fps
    ++ "/1 ! nvvidconv ! video/x-raw, format=(string)BGRx ! videoconvert"
    ++ " ! video/x-raw, format=(string)BGR ! appsink "

/-! ### Basic facts about `natDigits` -/

theorem natDigitsAux_fuel_irrel :
    ∀ f g n, n < f → n < g → natDigitsAux f n = natDigitsAux g n := by
  intro f
  induction f with
  | zero => intro g n h; omega
  | succ f ih =>
    intro g n hf hg
    match g, hg with
    | g + 1, hg =>
      show (if n < 10 then [Nat.digitChar n]
            else natDigitsAux f (n / 10) ++ [Nat.digitChar (n % 10)]) =
          (if n < 10 then [Nat.digitChar n]
            else natDigitsAux g (n / 10) ++ [Nat.digitChar (n % 10)])
      by_cases h10 : n < 10
      · simp [h10]
      · have hdiv : n / 10 < n := Nat.div_lt_self (by omega) (by omega)
        simp only [h10, if_false]
        rw [ih g (n / 10) (by omega) (by omega)]

/-- The natural (non-fuelled) recursion satisfied by `natDigits`. -/
theorem natDigits_eq (n : Nat) :
    natDigits n =
      if n < 10 then [Nat.digitChar n]
      else natDigits (n / 10) ++ [Nat.digitChar (n % 10)] := by
  show (if n < 10 then [Nat.digitChar n]
        else natDigitsAux n (n / 10) ++ [Nat.digitChar (n % 10)]) = _
  by_cases h10 : n < 10
  · simp [h10]
  · have hdiv : n / 10 < n := Nat.div_lt_self (by omega) (by omega)
    simp only [h10, if_false]
    rw [natDigitsAux_fuel_irrel n (n / 10 + 1) (n / 10) (by omega) (by omega)]
    rfl

theorem natDigits_ne_nil (n : Nat) : natDigits n ≠ [] := by
  rw [natDigits_eq]
  by_cases h10 : n < 10 <;> simp [h10]

theorem digitChar_toNat {n : Nat} (h : n < 10) :
    (Nat.digitChar n).toNat = 48 + n := by
  interval_cases n <;> decide

theorem digitChar_isDigit {n : Nat} (h : n < 10) :
    (Nat.digitChar n).isDigit = true := by
  interval_cases n <;> decide

theorem natDigits_all_digit (n : Nat) :
    ∀ c ∈ natDigits n, c.isDigit = true := by
  induction n using Nat.strong_induction_on with
  | _ n ih =>
    rw [natDigits_eq]
    by_cases h10 : n < 10
    · simp only [h10, if_true, List.mem_singleton]
      intro c hc; subst hc; exact digitChar_isDigit h10
    · have hdiv : n / 10 < n := Nat.div_lt_self (by omega) (by omega)
      simp only [h10, if_false, List.mem_append, List.mem_singleton]
      intro c hc
      rcases hc with hc | hc
      · exact ih (n / 10) hdiv c hc
      · subst hc; exact digitChar_isDigit (Nat.mod_lt n (by omega))

/-- Evaluating the digit list back to a number: the step of decimal reading. -/
def digitStep (a : Nat) (c : Char) : Nat := 10 * a + (c.toNat - 48)

theorem foldl_natDigits (n : Nat) :
    ∀ acc, (natDigits n).foldl digitStep acc =
      acc * 10 ^ (natDigits n).length + n := by
  induction n using Nat.strong_induction_on with
  | _ n ih =>
    intro acc
    rw [natDigits_eq]
    by_cases h10 : n < 10
    · simp only [h10, if_true, List.foldl_cons, List.foldl_nil,
        List.length_singleton, pow_one, digitStep]
      rw [digitChar_toNat h10]
      omega
    · have hdiv : n / 10 < n := Nat.div_lt_self (by omega) (by omega)
      simp only [h10, if_false, List.foldl_append, List.foldl_cons,
        List.foldl_nil, List.length_append, List.length_singleton]
      rw [ih (n / 10) hdiv acc]
      show 10 * (acc * 10 ^ (natDigits (n / 10)).length + n / 10) +
          ((Nat.digitChar (n % 10)).toNat - 48) = _
      rw [digitChar_toNat (Nat.mod_lt n (by omega)), pow_succ,
        ← Nat.mul_assoc]
      have := Nat.div_add_mod n 10
      omega

theorem natDigits_inj {a b : Nat} (h : natDigits a = natDigits b) : a = b := by
  have ha := foldl_natDigits a 0
  have hb := foldl_natDigits b 0
  rw [h] at ha
  omega

theorem intToString_inj {a b : Int}
    (hd : (intToString a).data = (intToString b).data) : a = b := by
  unfold intToString at hd
  by_cases ha : a < 0 <;> by_cases hb : b < 0 <;>
    simp only [ha, hb, if_true, if_false] at hd
  · have hd' : '-' :: natDigits a.natAbs = '-' :: natDigits b.natAbs := hd
    have := natDigits_inj (List.cons_injective hd')
    omega
  · obtain ⟨c, l, hcl⟩ : ∃ c l, natDigits b.natAbs = c :: l := by
      cases hnd : natDigits b.natAbs with
      | nil => exact absurd hnd (natDigits_ne_nil _)
      | cons c l => exact ⟨c, l, rfl⟩
    have hd' : '-' :: natDigits a.natAbs = c :: l := by
      rw [← hcl]; exact hd
    have hc : c.isDigit = true :=
      natDigits_all_digit _ c (by rw [hcl]; exact List.mem_cons_self c l)
    have : ('-' : Char) = c := (List.cons_eq_cons.mp hd').1
    rw [← this] at hc
    exact absurd hc (by decide)
  · obtain ⟨c, l, hcl⟩ : ∃ c l, natDigits a.natAbs = c :: l := by
      cases hnd : natDigits a.natAbs with
      | nil => exact absurd hnd (natDigits_ne_nil _)
      | cons c l => exact ⟨c, l, rfl⟩
    have hd' : c :: l = '-' :: natDigits b.natAbs := by
      rw [← hcl]; exact hd
    have hc : c.isDigit = true :=
      natDigits_all_digit _ c (by rw [hcl]; exact List.mem_cons_self c l)
    have : c = ('-' : Char) := (List.cons_eq_cons.mp hd').1
    rw [this] at hc
    exact absurd hc (by decide)
  · have hd' : natDigits a.natAbs = natDigits b.natAbs := hd
    have := natDigits_inj hd'
    omega

theorem intToString_data_of_nonneg {n : Int} (h : 0 ≤ n) :
    (intToString n).data = natDigits n.natAbs := by
  unfold intToString
  rw [if_neg (by omega)]

theorem intToString_all_digit {n : Int} (h : 0 ≤ n) :
    ∀ c ∈ (intToString n).data, c.isDigit = true := by
  rw [intToString_data_of_nonneg h]
  exact natDigits_all_digit _

theorem intToString_data_ne_nil (n : Int) : (intToString n).data ≠ [] := by
  unfold intToString
  by_cases h : n < 0 <;> simp [h, natDigits_ne_nil]

/-! ## Counting substring occurrences

`countOccur p s` counts the positions of `s` at which the pattern `p`
occurs as a contiguous substring.  "`s` contains `p`" is `0 < countOccur`;
"exactly once" is `countOccur = 1`. -/

/-- Number of starting positions of `s` at which `p` occurs contiguously. -/
def countOccur (p : List Char) : List Char → Nat
  | [] => if p <+: ([] : List Char) then 1 else 0
  | c :: t => (if p <+: (c :: t) then 1 else 0) + countOccur p t

theorem countOccur_nil_of_ne {p : List Char} (hp : p ≠ []) :
    countOccur p [] = 0 := by
  simp [countOccur, List.prefix_nil, hp]

/-- Occurrences only become more numerous when material is prepended. -/
theorem countOccur_le_append (p a b : List Char) :
    countOccur p b ≤ countOccur p (a ++ b) := by
  induction a with
  | nil => simp
  | cons x t ih =>
    show countOccur p b ≤ (if _ then 1 else 0) + countOccur p (t ++ b)
    omega

/-- A pattern occurs in any string that starts with it. -/
theorem countOccur_pos_self {p : List Char} (b : List Char) (hp : p ≠ []) :
    1 ≤ countOccur p (p ++ b) := by
  match p, hp with
  | c :: t, _ =>
    show 1 ≤ (if (c :: t) <+: (c :: t) ++ b then 1 else 0) + _
    rw [if_pos (List.prefix_append _ _)]
    omega

/-- Extending a pattern on the right cannot create occurrences. -/
theorem countOccur_append_pattern_le (p q s : List Char) :
    countOccur (p ++ q) s ≤ countOccur p s := by
  induction s with
  | nil =>
    simp only [countOccur, List.prefix_nil, List.append_eq_nil]
    by_cases h : p = [] ∧ q = []
    · simp [h.1, h.2]
    · rw [if_neg h]; omega
  | cons c t ih =>
    show (if _ then 1 else 0) + countOccur (p ++ q) t ≤
        (if _ then 1 else 0) + countOccur p t
    have hmono : (p ++ q) <+: (c :: t) → p <+: (c :: t) := fun h =>
      (List.prefix_append p q).trans h
    by_cases h : (p ++ q) <+: (c :: t)
    · rw [if_pos h, if_pos (hmono h)]; omega
    · rw [if_neg h]
      by_cases h' : p <+: (c :: t) <;> simp [h'] <;> omega

/-- A pattern without decimal digits cannot occur inside an all-digit
block: occurrences in `m ++ b` with `m` all digits all lie in `b`. -/
theorem countOccur_digit_block {p : List Char} (m b : List Char)
    (hphead : ∀ x, p.head? = some x → x.isDigit = false) (hp : p ≠ [])
    (hm : ∀ c ∈ m, c.isDigit = true) :
    countOccur p (m ++ b) = countOccur p b := by
  induction m with
  | nil => rfl
  | cons d t ih =>
    show (if p <+: d :: (t ++ b) then 1 else 0) + countOccur p (t ++ b) = _
    match p, hp with
    | c :: p', _ =>
      have hc : c.isDigit = false := hphead c rfl
      have hd : d.isDigit = true := hm d (List.mem_cons_self d t)
      have hne : ¬((c :: p') <+: d :: (t ++ b)) := by
        rw [List.cons_prefix_cons]
        rintro ⟨rfl, -⟩
        rw [hc] at hd
        exact absurd hd (by decide)
      rw [if_neg hne]
      rw [ih (fun c hc => hm c (List.mem_cons_of_mem d hc))]
      omega

/-- A prefix of `l₁ ++ l₂` is a prefix of `l₁` or extends all of `l₁`. -/
theorem prefix_append_split {l l₁ l₂ : List Char} (h : l <+: l₁ ++ l₂) :
    l <+: l₁ ∨ ∃ r, l = l₁ ++ r ∧ r <+: l₂ := by
  induction l₁ generalizing l with
  | nil => exact Or.inr ⟨l, rfl, h⟩
  | cons x t ih =>
    cases l with
    | nil => exact Or.inl List.nil_prefix
    | cons c p' =>
      rw [List.cons_append, List.cons_prefix_cons] at h
      obtain ⟨rfl, h'⟩ := h
      rcases ih h' with h'' | ⟨r, rfl, hr⟩
      · exact Or.inl (List.cons_prefix_cons.mpr ⟨rfl, h''⟩)
      · exact Or.inr ⟨r, rfl, hr⟩

/-- A digit-free pattern is a prefix of `a ++ (m ++ b)` with `m` a nonempty
all-digit block exactly when it is a prefix of `a` alone. -/
theorem prefix_through_digit_block {p : List Char} (a m b : List Char)
    (hpall : ∀ c ∈ p, c.isDigit = false)
    (hm : ∀ c ∈ m, c.isDigit = true) (hmne : m ≠ []) :
    p <+: a ++ (m ++ b) ↔ p <+: a := by
  constructor
  · intro h
    rcases prefix_append_split h with h' | ⟨r, rfl, hr⟩
    · exact h'
    · match r, hr with
      | [], _ => simp
      | e :: r', hr =>
        match m, hmne with
        | d :: m', _ =>
          rw [List.cons_append, List.cons_prefix_cons] at hr
          obtain ⟨rfl, -⟩ := hr
          have h1 : e.isDigit = false :=
            hpall e (List.mem_append_right a (List.mem_cons_self e r'))
          have h2 : e.isDigit = true := hm e (List.mem_cons_self e m')
          rw [h1] at h2
          exact absurd h2 (by decide)
  · intro h
    exact h.trans (List.prefix_append a (m ++ b))

/-- Occurrence counting distributes over an inserted nonempty all-digit
block, for a digit-free nonempty pattern: no occurrence can touch the
block. -/
theorem countOccur_split_digit_block {p : List Char} (a m b : List Char)
    (hpall : ∀ c ∈ p, c.isDigit = false) (hp : p ≠ [])
    (hm : ∀ c ∈ m, c.isDigit = true) (hmne : m ≠ []) :
    countOccur p (a ++ (m ++ b)) = countOccur p a + countOccur p b := by
  induction a with
  | nil =>
    rw [List.nil_append, countOccur_nil_of_ne hp, Nat.zero_add]
    refine countOccur_digit_block m b (fun x hx => ?_) hp hm
    apply hpall
    cases p with
    | nil => simp at hx
    | cons c t =>
      simp only [List.head?_cons, Option.some.injEq] at hx
      subst hx
      exact List.mem_cons_self c t
  | cons x t ih =>
    show (if p <+: (x :: t) ++ (m ++ b) then 1 else 0) +
        countOccur p (t ++ (m ++ b)) = _
    rw [ih]
    have hiff := prefix_through_digit_block (x :: t) m b hpall hm hmne
    show _ = (if p <+: x :: t then 1 else 0) + countOccur p t + countOccur p b
    by_cases h : p <+: x :: t
    · rw [if_pos (hiff.mpr h), if_pos h]; omega
    · rw [if_neg (fun hh => h (hiff.mp hh)), if_neg h]; omega

/-! ## Decomposition of the descriptor into template segments

The descriptor is the five fixed template segments with the four rendered
numbers inserted between them.  Each inserted number is a nonempty all-digit
block (for nonnegative arguments), and each field label is digit-free, so
`countOccur_split_digit_block` localises label occurrences to segments. -/

def segA : List Char := "nvarguscamerasrc sensor-id=".data

def segB : List Char := " ! video/x-raw(memory:NVMM), width=(int)".data

def segC : List Char := ", height=(int)".data

def segD : List Char := ", format=(string)NV12, framerate=(fraction)".data

def segE : List Char :=
  ("/1 ! nvvidconv ! video/x-raw, format=(string)BGRx ! videoconvert"
    ++ " ! video/x-raw, format=(string)BGR ! appsink ").data

theorem string_data_append (a b : String) :
    (a ++ b).data = a.data ++ b.data := rfl

theorem create_capture_data (c w h f : Int) :
    (create_capture c w h f).data =
      segA ++ ((intToString c).data ++ (segB ++ ((intToString w).data ++
        (segC ++ ((intToString h).data ++ (segD ++
          ((intToString f).data ++ segE))))))) := by
  simp only [create_capture, string_data_append, segA, segB, segC, segD,
    segE, List.append_assoc]

def labelCam : List Char := "sensor-id=".data

def labelW : List Char := "width=(int)".data

def labelH : List Char := "height=(int)".data

def labelF : List Char := "framerate=(fraction)".data

/-- Occurrences of a digit-free label in the descriptor are exactly its
occurrences in the five fixed template segments. -/
theorem countOccur_label_create_capture {label : List Char}
    {c w h f : Int} (hc : 0 ≤ c) (hw : 0 ≤ w) (hh : 0 ≤ h) (hf : 0 ≤ f)
    (hl : ∀ x ∈ label, x.isDigit = false) (hlne : label ≠ []) :
    countOccur label (create_capture c w h f).data =
      countOccur label segA + countOccur label segB + countOccur label segC
        + countOccur label segD + countOccur label segE := by
  rw [create_capture_data]
  rw [countOccur_split_digit_block segA _ _ hl hlne
    (intToString_all_digit hc) (intToString_data_ne_nil c)]
  rw [countOccur_split_digit_block segB _ _ hl hlne
    (intToString_all_digit hw) (intToString_data_ne_nil w)]
  rw [countOccur_split_digit_block segC _ _ hl hlne
    (intToString_all_digit hh) (intToString_data_ne_nil h)]
  rw [countOccur_split_digit_block segD _ _ hl hlne
    (intToString_all_digit hf) (intToString_data_ne_nil f)]
  omega

/-- One occurrence exists wherever the string decomposes around the
pattern. -/
theorem countOccur_pos_of_decomp {p s pre post : List Char} (hp : p ≠ [])
    (hs : s = pre ++ (p ++ post)) : 1 ≤ countOccur p s := by
  rw [hs]
  exact le_trans (countOccur_pos_self post hp)
    (countOccur_le_append p pre (p ++ post))

/-! ## Claims about the descriptor builder (C6, C7, C8) -/

/-- C6: the pipeline descriptor builder applied to camera=1, width=1280,
height=720, fps=30 returns a string containing the substrings
"sensor-id=1", "width=(int)1280", "height=(int)720" and
"framerate=(fraction)30/1". -/
theorem create_capture_example_substrings :
    0 < countOccur "sensor-id=1".data (create_capture 1 1280 720 30).data ∧
    0 < countOccur "width=(int)1280".data
        (create_capture 1 1280 720 30).data ∧
    0 < countOccur "height=(int)720".data
        (create_capture 1 1280 720 30).data ∧
    0 < countOccur "framerate=(fraction)30/1".data
        (create_capture 1 1280 720 30).data := by
  decide

/-- C7: for all valid (nonnegative) inputs, the descriptor contains the
camera index exactly once (after its `sensor-id=` label), the width and
height exactly once each (after their `width=(int)` / `height=(int)`
labels), and the fps value exactly once, immediately followed by the
literal fraction denominator "/1". -/
theorem create_capture_field_occurrences (camera width height fps : Int)
    (hc : 0 ≤ camera) (hw : 0 ≤ width) (hh : 0 ≤ height) (hf : 0 ≤ fps) :
    countOccur (labelCam ++ (intToString camera).data)
      (create_capture camera width height fps).data = 1 ∧
    countOccur (labelW ++ (intToString width).data)
      (create_capture camera width height fps).data = 1 ∧
    countOccur (labelH ++ (intToString height).data)
      (create_capture camera width height fps).data = 1 ∧
    countOccur (labelF ++ ((intToString fps).data ++ "/1".data))
      (create_capture camera width height fps).data = 1 := by
  refine ⟨?_, ?_, ?_, ?_⟩
  · have hup : countOccur (labelCam ++ (intToString camera).data)
        (create_capture camera width height fps).data ≤
        countOccur labelCam (create_capture camera width height fps).data :=
      countOccur_append_pattern_le _ _ _
    have hlab : countOccur labelCam
        (create_capture camera width height fps).data = 1 := by
      rw [countOccur_label_create_capture hc hw hh hf (by decide) (by decide)]
      decide
    have hdec : (create_capture camera width height fps).data =
        "nvarguscamerasrc ".data ++
          ((labelCam ++ (intToString camera).data) ++
            (segB ++ ((intToString width).data ++ (segC ++
              ((intToString height).data ++ (segD ++
                ((intToString fps).data ++ segE))))))) := by
      rw [create_capture_data,
        show segA = "nvarguscamerasrc ".data ++ labelCam by decide]
      simp only [List.append_assoc]
    have hlow := countOccur_pos_of_decomp
      (fun hnil => (by decide : labelCam ≠ [])
        (List.append_eq_nil.mp hnil).1) hdec
    omega
  · have hup : countOccur (labelW ++ (intToString width).data)
        (create_capture camera width height fps).data ≤
        countOccur labelW (create_capture camera width height fps).data :=
      countOccur_append_pattern_le _ _ _
    have hlab : countOccur labelW
        (create_capture camera width height fps).data = 1 := by
      rw [countOccur_label_create_capture hc hw hh hf (by decide) (by decide)]
      decide
    have hdec : (create_capture camera width height fps).data =
        (segA ++ ((intToString camera).data ++
            " ! video/x-raw(memory:NVMM), ".data)) ++
          ((labelW ++ (intToString width).data) ++ (segC ++
            ((intToString height).data ++ (segD ++
              ((intToString fps).data ++ segE))))) := by
      rw [create_capture_data,
        show segB = " ! video/x-raw(memory:NVMM), ".data ++ labelW by decide]
      simp only [List.append_assoc]
    have hlow := countOccur_pos_of_decomp
      (fun hnil => (by decide : labelW ≠ [])
        (List.append_eq_nil.mp hnil).1) hdec
    omega
  · have hup : countOccur (labelH ++ (intToString height).data)
        (create_capture camera width height fps).data ≤
        countOccur labelH (create_capture camera width height fps).data :=
      countOccur_append_pattern_le _ _ _
    have hlab : countOccur labelH
        (create_capture camera width height fps).data = 1 := by
      rw [countOccur_label_create_capture hc hw hh hf (by decide) (by decide)]
      decide
    have hdec : (create_capture camera width height fps).data =
        (segA ++ ((intToString camera).data ++ (segB ++
            ((intToString width).data ++ ", ".data)))) ++
          ((labelH ++ (intToString height).data) ++ (segD ++
            ((intToString fps).data ++ segE))) := by
      rw [create_capture_data,
        show segC = ", ".data ++ labelH by decide]
      simp only [List.append_assoc]
    have hlow := countOccur_pos_of_decomp
      (fun hnil => (by decide : labelH ≠ [])
        (List.append_eq_nil.mp hnil).1) hdec
    omega
  · have hup : countOccur (labelF ++ ((intToString fps).data ++ "/1".data))
        (create_capture camera width height fps).data ≤
        countOccur labelF (create_capture camera width height fps).data :=
      countOccur_append_pattern_le _ _ _
    have hlab : countOccur labelF
        (create_capture camera width height fps).data = 1 := by
      rw [countOccur_label_create_capture hc hw hh hf (by decide) (by decide)]
      decide
    have hdec : (create_capture camera width height fps).data =
        (segA ++ ((intToString camera).data ++ (segB ++
            ((intToString width).data ++ (segC ++
              ((intToString height).data ++
                ", format=(string)NV12, ".data)))))) ++
          ((labelF ++ ((intToString fps).data ++ "/1".data)) ++
            (" ! nvvidconv ! video/x-raw, format=(string)BGRx ! videoconvert"
              ++ " ! video/x-raw, format=(string)BGR ! appsink ").data) := by
      rw [create_capture_data,
        show segD = ", format=(string)NV12, ".data ++ labelF by decide,
        show segE = "/1".data ++
          (" ! nvvidconv ! video/x-raw, format=(string)BGRx ! videoconvert"
            ++ " ! video/x-raw, format=(string)BGR ! appsink ").data
          by decide]
      simp only [List.append_assoc]
    have hlow := countOccur_pos_of_decomp
      (fun hnil => (by decide : labelF ≠ [])
        (List.append_eq_nil.mp hnil).1) hdec
    omega

/-- Closed instance of `create_capture_field_occurrences` at the example
input camera=1, width=1280, height=720, fps=30. -/
theorem create_capture_field_occurrences_witness :
    countOccur (labelCam ++ (intToString 1).data)
      (create_capture 1 1280 720 30).data = 1 ∧
    countOccur (labelW ++ (intToString 1280).data)
      (create_capture 1 1280 720 30).data = 1 ∧
    countOccur (labelH ++ (intToString 720).data)
      (create_capture 1 1280 720 30).data = 1 ∧
    countOccur (labelF ++ ((intToString 30).data ++ "/1".data))
      (create_capture 1 1280 720 30).data = 1 :=
  create_capture_field_occurrences 1 1280 720 30
    (by decide) (by decide) (by decide) (by decide)

/-! ## C8: purity and camera-injectivity of the descriptor builder -/

/-- The character class that `std::to_string(int)` can emit: decimal
digits and the minus sign. -/
def numChar (c : Char) : Bool := c.isDigit || c == '-'

theorem intToString_all_numChar (n : Int) :
    ∀ c ∈ (intToString n).data, numChar c = true := by
  unfold intToString
  by_cases h : n < 0 <;> simp only [h, if_true, if_false]
  · intro c hc
    rcases List.mem_cons.mp hc with rfl | hc
    · decide
    · have := natDigits_all_digit n.natAbs c hc
      simp [numChar, this]
  · intro c hc
    have := natDigits_all_digit n.natAbs c hc
    simp [numChar, this]

/-- Cancellation: two blocks of numeric characters followed by material
starting with a non-numeric character agree as soon as the full strings
agree. -/
theorem numChar_append_cancel :
    ∀ (a a' b b' : List Char),
      (∀ x ∈ a, numChar x = true) → (∀ x ∈ a', numChar x = true) →
      (∀ x, b.head? = some x → numChar x = false) →
      (∀ x, b'.head? = some x → numChar x = false) →
      a ++ b = a' ++ b' → a = a' := by
  intro a
  induction a with
  | nil =>
    intro a' b b' _ ha' hb _ heq
    cases a' with
    | nil => rfl
    | cons d t =>
      exfalso
      have h1 : numChar d = true := ha' d (List.mem_cons_self d t)
      have hbd : b = d :: (t ++ b') := heq
      have h2 : numChar d = false := hb d (by rw [hbd]; rfl)
      rw [h1] at h2
      exact absurd h2 (by decide)
  | cons x t ih =>
    intro a' b b' ha ha' hb hb' heq
    cases a' with
    | nil =>
      exfalso
      have h1 : numChar x = true := ha x (List.mem_cons_self x t)
      have hbx : b' = x :: (t ++ b) := heq.symm
      have h2 : numChar x = false := hb' x (by rw [hbx]; rfl)
      rw [h1] at h2
      exact absurd h2 (by decide)
    | cons y t' =>
      have heq' : x :: (t ++ b) = y :: (t' ++ b') := heq
      obtain ⟨rfl, hrest⟩ := List.cons_eq_cons.mp heq'
      rw [ih t' b b' (fun z hz => ha z (List.mem_cons_of_mem x hz))
        (fun z hz => ha' z (List.mem_cons_of_mem x hz)) hb hb' hrest]

/-- C8: the descriptor builder is a pure function of its four arguments
(in this embedding, definitionally), and two calls differing in the
camera index while agreeing on width, height and fps produce distinct
descriptor strings. -/
theorem create_capture_pure_and_camera_injective :
    (∀ c w h f : Int, create_capture c w h f = create_capture c w h f) ∧
    (∀ c c' w h f : Int, c ≠ c' →
      create_capture c w h f ≠ create_capture c' w h f) := by
  refine ⟨fun _ _ _ _ => rfl, ?_⟩
  intro c c' w h f hne heq
  apply hne
  apply intToString_inj
  have hd := congrArg String.data heq
  rw [create_capture_data, create_capture_data] at hd
  have hd' := List.append_cancel_left hd
  refine numChar_append_cancel _ _ _ _ (intToString_all_numChar c)
    (intToString_all_numChar c') ?_ ?_ hd'
  · intro x hx
    have hhead : (segB ++ ((intToString w).data ++ (segC ++
        ((intToString h).data ++ (segD ++
          ((intToString f).data ++ segE)))))).head? = some ' ' := rfl
    rw [hhead] at hx
    cases hx
    decide
  · intro x hx
    have hhead : (segB ++ ((intToString w).data ++ (segC ++
        ((intToString h).data ++ (segD ++
          ((intToString f).data ++ segE)))))).head? = some ' ' := rfl
    rw [hhead] at hx
    cases hx
    decide

/-- Closed instance of the camera-injectivity half of
`create_capture_pure_and_camera_injective` at cameras 0 and 1 with the
default resolution and rate. -/
theorem create_capture_camera_injective_witness :
    (0 : Int) ≠ 1 ∧
    create_capture 0 1920 1080 30 ≠ create_capture 1 1920 1080 30 :=
  ⟨by decide,
    create_capture_pure_and_camera_injective.2 0 1 1920 1080 30 (by decide)⟩

/-! ## C9: command-line defaults

`main` builds its flag table as the `keys` string literal
(src/camerascalib.cpp:105-110) and reads `width`, `height` and `fps`
through `cv::CommandLineParser` (external OpenCV).  The keys string is
embedded verbatim; the parser's documented lookup rule — a flag absent
from the command line yields the default recorded in the keys string —
is modelled at character level. -/

/-- Split a character list at every occurrence of `sep` (the separators
are dropped; `n` separators yield `n+1` pieces). -/
def splitOnChar (sep : Char) : List Char → List (List Char)
  | [] => [[]]
  | c :: rest =>
    match splitOnChar sep rest with
    | [] => if c = sep then [[], []] else [[c]]
    | h :: t => if c = sep then [] :: h :: t else (c :: h) :: t

/-- Strip leading and trailing spaces. -/
def trimChars (l : List Char) : List Char :=
  ((l.dropWhile (· = ' ')).reverse.dropWhile (· = ' ')).reverse

/-- The `keys` flag table of `main` (src/camerascalib.cpp:105-110),
four adjacent string literals exactly as in the source. -/
def keys_src : String :=
  "{h help         |     | message }"
    ++ "{width          |1920 | width }"
    ++ "{height         |1080 | height }"
    ++ "{fps            |30   | frame per second }"

/-- Modelled from the spec: the flag-table format consumed by the external
`cv::CommandLineParser` — each `{names | default | help}` block lists
space-separated synonyms for one flag and its default value text. -/
def parseKeys (keys : List Char) : List (List (List Char) × List Char) :=
  ((splitOnChar '{' keys).drop 1).map fun blockRaw =>
    let block := blockRaw.takeWhile (· ≠ '}')
    let fields := splitOnChar '|' block
    ((splitOnChar ' ' (fields.getD 0 [])).filter (· ≠ []),
      trimChars (fields.getD 1 []))

/-- The default-value text recorded for flag `name` in a keys string. -/
def lookupDefault (keys name : List Char) : Option (List Char) :=
  (parseKeys keys).findSome? fun e => if name ∈ e.1 then some e.2 else none

/-- Decimal reading of a digit string. -/
def strToNat (l : List Char) : Nat := l.foldl digitStep 0

/-- Decimal reading of an optionally-signed digit string. -/
def strToInt (l : List Char) : Int :=
  match l with
  | '-' :: r => -(strToNat r : Int)
  | _ => (strToNat l : Int)

/-- Modelled from the spec: `cv::CommandLineParser::get<int>` (external
OpenCV, only its flag table lives in this repository) returns the parsed
command-line value when the flag was supplied and otherwise the default
recorded in the keys string.  `args` maps a flag name to the value
supplied for it on the command line, if any. -/
def cmdGetInt (args : String → Option String) (name : String) : Int :=
  match args name with
  | some v => strToInt v.data
  | none =>
    match lookupDefault keys_src.data name.data with
    | some d => strToInt d
    | none => 0

/-- The `width` value `main` uses (src/camerascalib.cpp:120). -/
def mainWidth (args : String → Option String) : Int := cmdGetInt args "width"

/-- The `height` value `main` uses (src/camerascalib.cpp:121). -/
def mainHeight (args : String → Option String) : Int :=
  cmdGetInt args "height"

/-- The `fps` value `main` uses (src/camerascalib.cpp:122; the C++ reads
it as `unsigned int` and passes it to an `int` parameter). -/
def mainFps (args : String → Option String) : Int := cmdGetInt args "fps"

/-- The capture-pipeline descriptor `main` builds for the given camera
(src/camerascalib.cpp:132 and 140). -/
def mainDescriptor (args : String → Option String) (camera : Int) : String :=
  create_capture camera (mainWidth args) (mainHeight args) (mainFps args)

/-- C9: when `--width`, `--height` and `--fps` are all omitted, the parser
yields width=1920, height=1080, fps=30, and those are the values used to
build both capture-pipeline descriptors. -/
theorem default_dimensions_used (args : String → Option String)
    (hw : args "width" = none) (hh : args "height" = none)
    (hf : args "fps" = none) :
    mainWidth args = 1920 ∧ mainHeight args = 1080 ∧ mainFps args = 30 ∧
    mainDescriptor args 0 = create_capture 0 1920 1080 30 ∧
    mainDescriptor args 1 = create_capture 1 1920 1080 30 := by
  have h1 : mainWidth args = 1920 := by
    unfold mainWidth cmdGetInt
    rw [hw]
    decide
  have h2 : mainHeight args = 1080 := by
    unfold mainHeight cmdGetInt
    rw [hh]
    decide
  have h3 : mainFps args = 30 := by
    unfold mainFps cmdGetInt
    rw [hf]
    decide
  refine ⟨h1, h2, h3, ?_, ?_⟩ <;> unfold mainDescriptor <;> rw [h1, h2, h3]

/-- Closed instance of `default_dimensions_used` for the empty command
line. -/
theorem default_dimensions_used_witness :
    mainWidth (fun _ => none) = 1920 ∧
    mainHeight (fun _ => none) = 1080 ∧
    mainFps (fun _ => none) = 30 ∧
    mainDescriptor (fun _ => none) 0 = create_capture 0 1920 1080 30 ∧
    mainDescriptor (fun _ => none) 1 = create_capture 1 1920 1080 30 :=
  default_dimensions_used (fun _ => none) rfl rfl rfl

/-! ## The capture/control loop of `main`

`main` (src/camerascalib.cpp:84-214) is modelled as a function that turns
an external environment — whether `--help` was requested, whether
argument parsing succeeded, whether each `VideoCapture::open` succeeds,
the key `cv::waitKey` reports in each iteration, and the value of the
SIGINT flag `g_stop` at each top-of-loop check — into the exit code and
the trace of calls made to the external subsystems.  Key codes are the
`int` values `cv::waitKey` returns: `'q'` = 113, `'c'` = 99, `'s'` = 115,
`'r'` = 114, and −1 for "no key". -/

/-- One observable call of `main` to an external subsystem.  The `gpu`
flag on collaborator calls records whether the call received the
GPU-resident pair `cuda_images` (`true`) or the host pair `images`
(`false`). -/
inductive Ev where
  /-- `VideoCapture::open` on camera `cam`, with its outcome. -/
  | openCap (cam : Nat) (ok : Bool)
  /-- `capture{cam} >> images[cam]`: pull one frame from camera `cam`. -/
  | pull (cam : Nat)
  /-- `cuda_images[cam].upload(images[cam])`. -/
  | upload (cam : Nat)
  /-- `calib->Feed(...)`. -/
  | feed (gpu : Bool)
  /-- `calib->DrawMatches(...)`. -/
  | drawMatches (gpu : Bool)
  /-- `calib->Evaluate(...)`. -/
  | evaluate (gpu : Bool)
  /-- `stitched_image.download(visual_stitching)`. -/
  | download
  /-- `cv::imshow`; window 0 is "Matches", window 1 is "Warping". -/
  | imshow (window : Nat)
  /-- `cv::waitKey(1)`: poll one keystroke. -/
  | waitKey
  /-- `calib->Estimate()`. -/
  | estimate
  /-- `calib->Save()`. -/
  | save
  /-- `calib->Reset()`. -/
  | reset
  /-- `ticks.start()`. -/
  | tickStart
  /-- `ticks.stop()`: each call increments `ticks.getCounter()`. -/
  | tickStop
  /-- `capture{cam}.release()`. -/
  | release (cam : Nat)
  /-- `cv::destroyAllWindows()`. -/
  | destroyAllWindows
  deriving DecidableEq, BEq, Repr

/-- The external environment a run of `main` is exposed to. -/
structure Env where
  /-- `cmd_parser.has("help")`. -/
  helpRequested : Bool
  /-- `cmd_parser.check()`. -/
  parseOk : Bool
  /-- whether `capture0.open` succeeds. -/
  cap0Opens : Bool
  /-- whether `capture1.open` succeeds. -/
  cap1Opens : Bool
  /-- the key `cv::waitKey(1)` reports in iteration `i` (−1 if none). -/
  keys : Nat → Int
  /-- the value of `g_stop` observed at the top-of-loop check before
  iteration `i` (set asynchronously by the SIGINT handler). -/
  sig : Nat → Bool

/-- The straight-line processing sequence of one loop iteration
(src/camerascalib.cpp:169-182), from `ticks.start()` through
`cv::waitKey(1)`. -/
def processEvents : List Ev :=
  [Ev.tickStart, Ev.pull 0, Ev.pull 1, Ev.upload 0, Ev.upload 1,
    Ev.feed true, Ev.drawMatches false, Ev.evaluate true, Ev.download,
    Ev.imshow 0, Ev.imshow 1, Ev.waitKey]

/-- The key-dispatch tail of one iteration (src/camerascalib.cpp:184-197):
`'q'` breaks out before `ticks.stop()`; `'c'`, `'s'`, `'r'` invoke a
collaborator operation and then reach `ticks.stop()`; any other key
reaches `ticks.stop()` directly. -/
def dispatchEvents (key : Int) : List Ev :=
  if key = 113 then []
  else if key = 99 then [Ev.estimate, Ev.tickStop]
  else if key = 115 then [Ev.save, Ev.tickStop]
  else if key = 114 then [Ev.reset, Ev.tickStop]
  else [Ev.tickStop]

/-- All events of one loop iteration that read `key`. -/
def bodyEvents (key : Int) : List Ev := processEvents ++ dispatchEvents key

/-- Result of running the `while (!g_stop)` loop to completion. -/
structure LoopOut where
  /-- events emitted by the loop. -/
  evs : List Ev
  /-- `ticks.getCounter()` on exit: the number of `ticks.stop()` calls. -/
  counter : Nat
  /-- the index after the last iteration that ran. -/
  stop : Nat
  /-- whether the loop exited through the `'q'` break (rather than
  through the `g_stop` check). -/
  viaQuit : Bool
  deriving Repr

/-- The `while (!g_stop)` loop (src/camerascalib.cpp:167-198), starting
at iteration `i` with `ticks.getCounter() = counter`; `fuel` bounds the
number of iterations examined, and `none` means the loop is still
running when the fuel runs out. -/
def runLoop (env : Env) : Nat → Nat → Nat → Option LoopOut
  | 0, _, _ => none
  | fuel + 1, i, counter =>
    if env.sig i then some ⟨[], counter, i, false⟩
    else if env.keys i = 113 then
      some ⟨bodyEvents (env.keys i), counter, i + 1, true⟩
    else
      match runLoop env fuel (i + 1) (counter + 1) with
      | none => none
      | some out => some ⟨bodyEvents (env.keys i) ++ out.evs,
          out.counter, out.stop, out.viaQuit⟩

/-- The concatenated traces of `k` consecutive iterations starting at
iteration `i`. -/
def loopTrace (env : Env) : Nat → Nat → List Ev
  | _, 0 => []
  | i, k + 1 => bodyEvents (env.keys i) ++ loopTrace env (i + 1) k

/-- The shared `cleanup:` label (src/camerascalib.cpp:209-213): every
exit path releases both captures and destroys all windows. -/
def cleanupEvents : List Ev :=
  [Ev.release 0, Ev.release 1, Ev.destroyAllWindows]

/-- `main` (src/camerascalib.cpp:84-214).  Returns the exit code and the
event trace, or `none` when the loop is still running after `fuel`
iterations.  The calibration session is constructed with
`calib.reset(new videostitcher::CamerasCalib(calib_settings))`
(line 149): `operator new` either succeeds or throws, so the shared
pointer the null check at line 150 inspects is modelled as always
non-null. -/
def run (env : Env) (fuel : Nat) : Option (Int × List Ev) :=
  if env.helpRequested then some (0, cleanupEvents)
  else if !env.parseOk then some (-1, cleanupEvents)
  else if !env.cap0Opens then
    some (-4, Ev.openCap 0 false :: cleanupEvents)
  else if !env.cap1Opens then
    some (-4, Ev.openCap 0 true :: Ev.openCap 1 false :: cleanupEvents)
  else
    if ((some () : Option Unit)).isNone then
      some (-5, Ev.openCap 0 true :: Ev.openCap 1 true :: cleanupEvents)
    else
      match runLoop env fuel 0 0 with
      | none => none
      | some out =>
        if out.counter = 0 then
          some (-10, Ev.openCap 0 true :: Ev.openCap 1 true ::
            (out.evs ++ cleanupEvents))
        else
          some (0, Ev.openCap 0 true :: Ev.openCap 1 true ::
            (out.evs ++ cleanupEvents))

/-! ### Invariants of the loop -/

/-- Shape invariant of `runLoop`: the trace is the concatenation of the
per-iteration traces; the tick counter counts the iterations that reached
`ticks.stop()` (all of them except a `'q'` iteration, whose `break`
precedes `ticks.stop()`); a quit exit reads `'q'` in its last
iteration. -/
theorem runLoop_spec (env : Env) :
    ∀ fuel i c out, runLoop env fuel i c = some out →
      i ≤ out.stop ∧
      out.counter + (if out.viaQuit then 1 else 0) + i = c + out.stop ∧
      out.evs = loopTrace env i (out.stop - i) ∧
      (out.viaQuit = true → env.keys (out.stop - 1) = 113) := by
  intro fuel
  induction fuel with
  | zero => intro i c out h; exact absurd h (by simp [runLoop])
  | succ fuel ih =>
    intro i c out h
    rw [runLoop] at h
    by_cases hs : env.sig i
    · rw [if_pos hs] at h
      obtain rfl := (Option.some.inj h).symm
      refine ⟨Nat.le_refl i, by simp, ?_, by simp⟩
      simp [loopTrace]
    · rw [if_neg hs] at h
      by_cases hq : env.keys i = 113
      · rw [if_pos hq] at h
        obtain rfl := (Option.some.inj h).symm
        refine ⟨Nat.le_succ i, ?_, ?_, fun _ => by simpa using hq⟩
        · show c + (if true then 1 else 0) + i = c + (i + 1)
          simp only [if_true]
          omega
        · show bodyEvents (env.keys i) = loopTrace env i (i + 1 - i)
          rw [Nat.add_sub_cancel_left]
          show _ = bodyEvents (env.keys i) ++ loopTrace env (i + 1) 0
          rw [show loopTrace env (i + 1) 0 = [] from rfl, List.append_nil]
      · rw [if_neg hq] at h
        cases hrec : runLoop env fuel (i + 1) (c + 1) with
        | none => rw [hrec] at h; exact absurd h (by simp)
        | some out' =>
          rw [hrec] at h
          obtain rfl := (Option.some.inj h).symm
          obtain ⟨hle, hcnt, hevs, hkey⟩ := ih (i + 1) (c + 1) out' hrec
          refine ⟨?_, ?_, ?_, fun hv => hkey hv⟩
          · show i ≤ out'.stop
            omega
          · show out'.counter + (if out'.viaQuit then 1 else 0) + i =
              c + out'.stop
            omega
          · show bodyEvents (env.keys i) ++ out'.evs =
              loopTrace env i (out'.stop - i)
            rw [hevs]
            have hk : out'.stop - i = (out'.stop - (i + 1)) + 1 := by omega
            rw [hk]
            rfl

/-- Splitting the last iteration off the concatenated trace. -/
theorem loopTrace_concat (env : Env) :
    ∀ k i, loopTrace env i (k + 1) =
      loopTrace env i k ++ bodyEvents (env.keys (i + k)) := by
  intro k
  induction k with
  | zero =>
    intro i
    show bodyEvents (env.keys i) ++ [] = [] ++ bodyEvents (env.keys (i + 0))
    simp
  | succ k ih =>
    intro i
    show bodyEvents (env.keys i) ++ loopTrace env (i + 1) (k + 1) = _
    rw [ih (i + 1)]
    show _ = (bodyEvents (env.keys i) ++ loopTrace env (i + 1) k) ++ _
    rw [List.append_assoc]
    have : i + 1 + k = i + (k + 1) := by omega
    rw [this]

/-- The operations of the per-iteration processing sequence (C1's
vocabulary): frame pulls, uploads, collaborator calls on frames, the
download, the renders and the keystroke poll. -/
def coreOp : Ev → Bool
  | Ev.pull _ => true
  | Ev.upload _ => true
  | Ev.feed _ => true
  | Ev.drawMatches _ => true
  | Ev.evaluate _ => true
  | Ev.download => true
  | Ev.imshow _ => true
  | Ev.waitKey => true
  | _ => false

theorem dispatchEvents_cases (k : Int) :
    dispatchEvents k = [] ∨ dispatchEvents k = [Ev.estimate, Ev.tickStop] ∨
    dispatchEvents k = [Ev.save, Ev.tickStop] ∨
    dispatchEvents k = [Ev.reset, Ev.tickStop] ∨
    dispatchEvents k = [Ev.tickStop] := by
  unfold dispatchEvents
  by_cases h1 : k = 113 <;> by_cases h2 : k = 99 <;>
    by_cases h3 : k = 115 <;> by_cases h4 : k = 114 <;>
    simp [h1, h2, h3, h4]

theorem bodyEvents_counts (k : Int) :
    (bodyEvents k).count (Ev.pull 0) = 1 ∧
    (bodyEvents k).count (Ev.pull 1) = 1 ∧
    (bodyEvents k).count Ev.waitKey = 1 ∧
    (bodyEvents k).count (Ev.feed true) = 1 ∧
    (bodyEvents k).count (Ev.release 0) = 0 ∧
    (bodyEvents k).count (Ev.release 1) = 0 ∧
    (bodyEvents k).count Ev.destroyAllWindows = 0 ∧
    (dispatchEvents k).countP (fun e => coreOp e) = 0 ∧
    (dispatchEvents k).count Ev.waitKey = 0 ∧
    (dispatchEvents k).count (Ev.pull 0) = 0 ∧
    (dispatchEvents k).count (Ev.pull 1) = 0 := by
  unfold bodyEvents
  rcases dispatchEvents_cases k with h | h | h | h | h <;> rw [h] <;> decide

theorem loopTrace_counts (env : Env) :
    ∀ k i, (loopTrace env i k).count (Ev.pull 0) = k ∧
      (loopTrace env i k).count (Ev.pull 1) = k ∧
      (loopTrace env i k).count (Ev.release 0) = 0 ∧
      (loopTrace env i k).count (Ev.release 1) = 0 ∧
      (loopTrace env i k).count Ev.destroyAllWindows = 0 := by
  intro k
  induction k with
  | zero => intro i; exact ⟨rfl, rfl, rfl, rfl, rfl⟩
  | succ k ih =>
    intro i
    obtain ⟨b1, b2, b3, b4, b5, b6, b7, -⟩ := bodyEvents_counts (env.keys i)
    obtain ⟨i1, i2, i3, i4, i5⟩ := ih (i + 1)
    simp only [loopTrace, List.count_append]
    refine ⟨?_, ?_, ?_, ?_, ?_⟩ <;> omega

/-- The loop branch of `run`: with help absent, parsing fine and both
cameras opening, the exit code is decided by the tick counter and the
trace is startup, loop trace, cleanup. -/
theorem run_loop_branch {env : Env} {fuel : Nat} {out : LoopOut}
    (hh : env.helpRequested = false) (hp : env.parseOk = true)
    (h0 : env.cap0Opens = true) (h1 : env.cap1Opens = true)
    (hrl : runLoop env fuel 0 0 = some out) :
    run env fuel = some ((if out.counter = 0 then (-10 : Int) else 0),
      Ev.openCap 0 true :: Ev.openCap 1 true ::
        (out.evs ++ cleanupEvents)) := by
  unfold run
  rw [if_neg (by simp [hh]), if_neg (by simp [hp]), if_neg (by simp [h0]),
    if_neg (by simp [h1]), if_neg (by decide), hrl]
  by_cases hc : out.counter = 0 <;> simp [hc]

/-- Every terminating run ends in the cleanup suffix, and nothing before
it releases a capture or destroys windows. -/
theorem run_shape {env : Env} {fuel : Nat} {code : Int} {trace : List Ev}
    (h : run env fuel = some (code, trace)) :
    ∃ pre, trace = pre ++ cleanupEvents ∧
      pre.count (Ev.release 0) = 0 ∧ pre.count (Ev.release 1) = 0 ∧
      pre.count Ev.destroyAllWindows = 0 := by
  unfold run at h
  split at h
  · obtain ⟨-, rfl⟩ := Prod.mk.injEq .. ▸ Option.some.inj h
    exact ⟨[], rfl, rfl, rfl, rfl⟩
  · split at h
    · obtain ⟨-, rfl⟩ := Prod.mk.injEq .. ▸ Option.some.inj h
      exact ⟨[], rfl, rfl, rfl, rfl⟩
    · split at h
      · obtain ⟨-, rfl⟩ := Prod.mk.injEq .. ▸ Option.some.inj h
        exact ⟨[Ev.openCap 0 false], rfl, rfl, rfl, rfl⟩
      · split at h
        · obtain ⟨-, rfl⟩ := Prod.mk.injEq .. ▸ Option.some.inj h
          exact ⟨[Ev.openCap 0 true, Ev.openCap 1 false], rfl, rfl, rfl, rfl⟩
        · split at h
          · obtain ⟨-, rfl⟩ := Prod.mk.injEq .. ▸ Option.some.inj h
            exact ⟨[Ev.openCap 0 true, Ev.openCap 1 true],
              rfl, rfl, rfl, rfl⟩
          · split at h
            · exact Option.noConfusion h
            · rename_i out hrl
              have hspec := runLoop_spec env fuel 0 0 out hrl
              obtain ⟨-, -, hevs, -⟩ := hspec
              obtain ⟨-, -, hc0, hc1, hcd⟩ :=
                loopTrace_counts env (out.stop - 0) 0
              rw [← hevs] at hc0 hc1 hcd
              split at h
              · obtain ⟨-, rfl⟩ := Prod.mk.injEq .. ▸ Option.some.inj h
                refine ⟨Ev.openCap 0 true :: Ev.openCap 1 true :: out.evs,
                  rfl, ?_, ?_, ?_⟩ <;>
                  simp [List.count_cons, hc0, hc1, hcd] <;> decide
              · obtain ⟨-, rfl⟩ := Prod.mk.injEq .. ▸ Option.some.inj h
                refine ⟨Ev.openCap 0 true :: Ev.openCap 1 true :: out.evs,
                  rfl, ?_, ?_, ?_⟩ <;>
                  simp [List.count_cons, hc0, hc1, hcd] <;> decide

/-! ### Concrete environments used to instantiate the loop theorems -/

/-- Both cameras open, and `'q'` is pressed during the very first
iteration. -/
def quitFirstEnv : Env :=
  { helpRequested := false, parseOk := true, cap0Opens := true,
    cap1Opens := true, keys := fun _ => 113, sig := fun _ => false }

/-- Both cameras open, no key for two iterations, then `'q'` in the
third. -/
def quitThirdEnv : Env :=
  { helpRequested := false, parseOk := true, cap0Opens := true,
    cap1Opens := true, keys := fun i => if i < 2 then -1 else 113,
    sig := fun _ => false }

/-- The first camera fails to open. -/
def cam0FailEnv : Env :=
  { helpRequested := false, parseOk := true, cap0Opens := false,
    cap1Opens := true, keys := fun _ => -1, sig := fun _ => false }

/-- SIGINT delivered before the first top-of-loop check. -/
def sigFirstEnv : Env :=
  { helpRequested := false, parseOk := true, cap0Opens := true,
    cap1Opens := true, keys := fun _ => -1, sig := fun _ => true }

/-! ## Claims about the control loop (C1, C2, C3, C4, C5, C10) -/

/-- C1: whenever the RUNNING loop terminates, its trace is exactly the
concatenation of per-iteration traces, and each iteration's trace is the
fixed processing sequence — pull camera 0, pull camera 1, upload both,
`Feed` on the GPU-resident pair, `DrawMatches` on the host pair,
`Evaluate` on the GPU-resident pair, download of the stitched output,
both renders, then exactly one keystroke poll — followed only by the
command-dispatch tail, which contains no such operation. -/
theorem loop_iteration_operation_order (env : Env) (fuel i c : Nat)
    (out : LoopOut) (k : Int) (h : runLoop env fuel i c = some out) :
    out.evs = loopTrace env i (out.stop - i) ∧
    bodyEvents k =
      [Ev.tickStart, Ev.pull 0, Ev.pull 1, Ev.upload 0, Ev.upload 1,
        Ev.feed true, Ev.drawMatches false, Ev.evaluate true, Ev.download,
        Ev.imshow 0, Ev.imshow 1, Ev.waitKey] ++ dispatchEvents k ∧
    (bodyEvents k).count Ev.waitKey = 1 ∧
    (dispatchEvents k).countP coreOp = 0 := by
  obtain ⟨-, -, hevs, -⟩ := runLoop_spec env fuel i c out h
  obtain ⟨-, -, h3, -, -, -, -, h8, -, -, -⟩ := bodyEvents_counts k
  exact ⟨hevs, rfl, h3, h8⟩

/-- Closed instance of `loop_iteration_operation_order`: one-iteration
quit run, dispatch inspected at key `'c'`. -/
theorem loop_iteration_operation_order_witness :
    bodyEvents 113 = loopTrace quitFirstEnv 0 (1 - 0) ∧
    bodyEvents 99 =
      [Ev.tickStart, Ev.pull 0, Ev.pull 1, Ev.upload 0, Ev.upload 1,
        Ev.feed true, Ev.drawMatches false, Ev.evaluate true, Ev.download,
        Ev.imshow 0, Ev.imshow 1, Ev.waitKey] ++ dispatchEvents 99 ∧
    (bodyEvents 99).count Ev.waitKey = 1 ∧
    (dispatchEvents 99).countP coreOp = 0 :=
  loop_iteration_operation_order quitFirstEnv 1 0 0
    ⟨bodyEvents 113, 0, 1, true⟩ 99 rfl

/-- C2 (amended): a run that enters the loop exits with code -10 exactly
when the tick counter is zero, i.e. when either no iteration ran at all
or the single iteration that ran read `'q'` — the `break` on `'q'` skips
`ticks.stop()`, so the quit iteration is never counted.  (The claim as
stated is false: a first-iteration quit processes one frame pair and
still exits -10; see the counterexample.) -/
theorem exit_neg10_iff_no_counted_iteration (env : Env) (fuel : Nat)
    (out : LoopOut) (hh : env.helpRequested = false)
    (hp : env.parseOk = true) (h0 : env.cap0Opens = true)
    (h1 : env.cap1Opens = true) (hrl : runLoop env fuel 0 0 = some out) :
    run env fuel = some ((if out.counter = 0 then (-10 : Int) else 0),
      Ev.openCap 0 true :: Ev.openCap 1 true ::
        (out.evs ++ cleanupEvents)) ∧
    (out.counter = 0 ↔
      out.stop = 0 ∨ (out.stop = 1 ∧ out.viaQuit = true)) := by
  refine ⟨run_loop_branch hh hp h0 h1 hrl, ?_⟩
  obtain ⟨-, hcnt, -, -⟩ := runLoop_spec env fuel 0 0 out hrl
  cases hv : out.viaQuit
  · have hite : (if out.viaQuit = true then 1 else 0) = 0 := by
      rw [hv]; rfl
    rw [hite] at hcnt
    simp only [Bool.false_eq_true, and_false, or_false]
    omega
  · have hite : (if out.viaQuit = true then 1 else 0) = 1 := by
      rw [hv]; rfl
    rw [hite] at hcnt
    simp only [eq_self_iff_true, and_true]
    omega

/-- Closed instance of `exit_neg10_iff_no_counted_iteration` at a
first-iteration quit. -/
theorem exit_neg10_iff_no_counted_iteration_witness :
    run quitFirstEnv 1 = some ((if (0 : Nat) = 0 then (-10 : Int) else 0),
      Ev.openCap 0 true :: Ev.openCap 1 true ::
        (bodyEvents 113 ++ cleanupEvents)) ∧
    ((0 : Nat) = 0 ↔ (1 : Nat) = 0 ∨ ((1 : Nat) = 1 ∧ true = true)) :=
  exit_neg10_iff_no_counted_iteration quitFirstEnv 1
    ⟨bodyEvents 113, 0, 1, true⟩ rfl rfl rfl rfl rfl

/-- C2 as stated is false: with `'q'` pressed during the first iteration,
one frame pair is pulled, fed and evaluated, yet the run exits with code
-10. -/
theorem exit_neg10_despite_processing_counterexample :
    run quitFirstEnv 1 = some (-10,
      Ev.openCap 0 true :: Ev.openCap 1 true ::
        (bodyEvents 113 ++ cleanupEvents)) ∧
    (Ev.openCap 0 true :: Ev.openCap 1 true ::
      (bodyEvents 113 ++ cleanupEvents)).count (Ev.pull 0) = 1 ∧
    (Ev.openCap 0 true :: Ev.openCap 1 true ::
      (bodyEvents 113 ++ cleanupEvents)).count (Ev.pull 1) = 1 ∧
    (Ev.openCap 0 true :: Ev.openCap 1 true ::
      (bodyEvents 113 ++ cleanupEvents)).count (Ev.feed true) = 1 ∧
    (Ev.openCap 0 true :: Ev.openCap 1 true ::
      (bodyEvents 113 ++ cleanupEvents)).count (Ev.evaluate true) = 1 := by
  decide

/-- C3: when the loop exits through the `'q'` break, the quit iteration
has read `'q'` at its keystroke poll, its trace is the complete
processing sequence (pulls through poll; only the `ticks.stop()`
instrumentation is skipped), and the only events after it in the whole
run are the cleanup calls — in particular no further frame pull from
either capture source. -/
theorem quit_completes_iteration_then_stops (env : Env) (fuel : Nat)
    (out : LoopOut) (hh : env.helpRequested = false)
    (hp : env.parseOk = true) (h0 : env.cap0Opens = true)
    (h1 : env.cap1Opens = true) (hrl : runLoop env fuel 0 0 = some out)
    (hq : out.viaQuit = true) :
    env.keys (out.stop - 1) = 113 ∧
    out.evs = loopTrace env 0 (out.stop - 1) ++ processEvents ∧
    run env fuel = some ((if out.counter = 0 then (-10 : Int) else 0),
      Ev.openCap 0 true :: Ev.openCap 1 true ::
        (out.evs ++ cleanupEvents)) ∧
    out.evs.count (Ev.pull 0) = out.stop ∧
    out.evs.count (Ev.pull 1) = out.stop ∧
    cleanupEvents.count (Ev.pull 0) = 0 ∧
    cleanupEvents.count (Ev.pull 1) = 0 := by
  obtain ⟨hle, hcnt, hevs, hkey⟩ := runLoop_spec env fuel 0 0 out hrl
  have hk113 := hkey hq
  have hstop : 1 ≤ out.stop := by
    have hite : (if out.viaQuit = true then 1 else 0) = 1 := by
      rw [hq]; rfl
    rw [hite] at hcnt
    omega
  refine ⟨hk113, ?_, run_loop_branch hh hp h0 h1 hrl, ?_, ?_, rfl, rfl⟩
  · rw [hevs]
    have hsplit : out.stop - 0 = (out.stop - 1) + 1 := by omega
    rw [hsplit, loopTrace_concat]
    have hz : 0 + (out.stop - 1) = out.stop - 1 := by omega
    rw [hz, hk113]
    rw [show bodyEvents 113 = processEvents from rfl]
  · rw [hevs, Nat.sub_zero]
    exact (loopTrace_counts env out.stop 0).1
  · rw [hevs, Nat.sub_zero]
    exact (loopTrace_counts env out.stop 0).2.1

/-- Closed instance of `quit_completes_iteration_then_stops`: quit read
in the third iteration; three frame pulls per camera in the loop trace
and none afterwards. -/
theorem quit_completes_iteration_then_stops_witness :
    quitThirdEnv.keys (3 - 1) = 113 ∧
    bodyEvents (-1) ++ (bodyEvents (-1) ++ bodyEvents 113) =
      loopTrace quitThirdEnv 0 (3 - 1) ++ processEvents ∧
    run quitThirdEnv 5 = some ((if (2 : Nat) = 0 then (-10 : Int) else 0),
      Ev.openCap 0 true :: Ev.openCap 1 true ::
        ((bodyEvents (-1) ++ (bodyEvents (-1) ++ bodyEvents 113)) ++
          cleanupEvents)) ∧
    (bodyEvents (-1) ++ (bodyEvents (-1) ++ bodyEvents 113)).count
      (Ev.pull 0) = 3 ∧
    (bodyEvents (-1) ++ (bodyEvents (-1) ++ bodyEvents 113)).count
      (Ev.pull 1) = 3 ∧
    cleanupEvents.count (Ev.pull 0) = 0 ∧
    cleanupEvents.count (Ev.pull 1) = 0 :=
  quit_completes_iteration_then_stops quitThirdEnv 5
    ⟨bodyEvents (-1) ++ (bodyEvents (-1) ++ bodyEvents 113), 2, 3, true⟩
    rfl rfl rfl rfl rfl rfl

/-- Events that open the second camera's capture source. -/
def isOpen1 : Ev → Bool
  | Ev.openCap 1 _ => true
  | _ => false

/-- C4: when the first camera's capture source fails to open, the run
exits with code -4; its complete trace shows that the second camera's
open is never attempted, no frame is ever pulled (the loop is never
entered), the first open is attempted exactly once (no retry), and the
shared cleanup still runs. -/
theorem cam0_open_failure_exits_neg4 (env : Env) (fuel : Nat)
    (hh : env.helpRequested = false) (hp : env.parseOk = true)
    (h0 : env.cap0Opens = false) :
    run env fuel = some (-4, Ev.openCap 0 false :: cleanupEvents) ∧
    (Ev.openCap 0 false :: cleanupEvents).countP isOpen1 = 0 ∧
    (Ev.openCap 0 false :: cleanupEvents).count (Ev.pull 0) = 0 ∧
    (Ev.openCap 0 false :: cleanupEvents).count (Ev.pull 1) = 0 ∧
    (Ev.openCap 0 false :: cleanupEvents).count (Ev.openCap 0 false) = 1 ∧
    (Ev.openCap 0 false :: cleanupEvents).count (Ev.openCap 0 true) = 0 ∧
    (Ev.openCap 0 false :: cleanupEvents).count (Ev.release 0) = 1 ∧
    (Ev.openCap 0 false :: cleanupEvents).count (Ev.release 1) = 1 := by
  refine ⟨?_, by decide, by decide, by decide, by decide, by decide,
    by decide, by decide⟩
  unfold run
  rw [if_neg (by simp [hh]), if_neg (by simp [hp]), if_pos (by simp [h0])]

/-- Closed instance of `cam0_open_failure_exits_neg4`. -/
theorem cam0_open_failure_exits_neg4_witness :
    run cam0FailEnv 3 = some (-4, Ev.openCap 0 false :: cleanupEvents) ∧
    (Ev.openCap 0 false :: cleanupEvents).countP isOpen1 = 0 ∧
    (Ev.openCap 0 false :: cleanupEvents).count (Ev.pull 0) = 0 ∧
    (Ev.openCap 0 false :: cleanupEvents).count (Ev.pull 1) = 0 ∧
    (Ev.openCap 0 false :: cleanupEvents).count (Ev.openCap 0 false) = 1 ∧
    (Ev.openCap 0 false :: cleanupEvents).count (Ev.openCap 0 true) = 0 ∧
    (Ev.openCap 0 false :: cleanupEvents).count (Ev.release 0) = 1 ∧
    (Ev.openCap 0 false :: cleanupEvents).count (Ev.release 1) = 1 :=
  cam0_open_failure_exits_neg4 cam0FailEnv 3 rfl rfl rfl

/-- C5: every terminating run — help, argument error, either camera-open
failure, signal-triggered stop or quit key — releases each of the two
capture sources exactly once and destroys the display windows exactly
once. -/
theorem cleanup_releases_each_capture_once (env : Env) (fuel : Nat)
    (code : Int) (trace : List Ev)
    (h : run env fuel = some (code, trace)) :
    trace.count (Ev.release 0) = 1 ∧ trace.count (Ev.release 1) = 1 ∧
    trace.count Ev.destroyAllWindows = 1 := by
  obtain ⟨pre, rfl, hp0, hp1, hpd⟩ := run_shape h
  simp only [List.count_append]
  have c0 : cleanupEvents.count (Ev.release 0) = 1 := rfl
  have c1 : cleanupEvents.count (Ev.release 1) = 1 := rfl
  have cd : cleanupEvents.count Ev.destroyAllWindows = 1 := rfl
  refine ⟨?_, ?_, ?_⟩ <;> omega

/-- Closed instance of `cleanup_releases_each_capture_once` on the
signal-before-first-iteration exit path. -/
theorem cleanup_releases_each_capture_once_witness :
    (Ev.openCap 0 true :: Ev.openCap 1 true ::
      ([] ++ cleanupEvents)).count (Ev.release 0) = 1 ∧
    (Ev.openCap 0 true :: Ev.openCap 1 true ::
      ([] ++ cleanupEvents)).count (Ev.release 1) = 1 ∧
    (Ev.openCap 0 true :: Ev.openCap 1 true ::
      ([] ++ cleanupEvents)).count Ev.destroyAllWindows = 1 :=
  cleanup_releases_each_capture_once sigFirstEnv 1 (-10)
    (Ev.openCap 0 true :: Ev.openCap 1 true :: ([] ++ cleanupEvents)) rfl

/-- C10: no terminating run of `main` exits with code -5.  The shared
pointer is filled by `calib.reset(new ...)` and `operator new` either
returns a valid pointer or throws, so the null check guarding the
`return_val = -5` branch can never fire. -/
theorem exit_code_never_neg5 (env : Env) (fuel : Nat) (r : Int × List Ev)
    (h : run env fuel = some r) : r.1 ≠ -5 := by
  unfold run at h
  split at h
  · obtain rfl := Option.some.inj h; decide
  · split at h
    · obtain rfl := Option.some.inj h; decide
    · split at h
      · obtain rfl := Option.some.inj h; decide
      · split at h
        · obtain rfl := Option.some.inj h; decide
        · split at h
          · rename_i hcal
            exact absurd hcal (by decide)
          · split at h
            · exact Option.noConfusion h
            · split at h
              · obtain rfl := Option.some.inj h
                intro hc
                have hc' : (-10 : Int) = -5 := hc
                exact absurd hc' (by decide)
              · obtain rfl := Option.some.inj h
                intro hc
                have hc' : (0 : Int) = -5 := hc
                exact absurd hc' (by decide)

/-- Closed instance of `exit_code_never_neg5` on the
signal-before-first-iteration run. -/
theorem exit_code_never_neg5_witness :
    ((-10 : Int), Ev.openCap 0 true :: Ev.openCap 1 true ::
      ([] ++ cleanupEvents)).1 ≠ -5 :=
  exit_code_never_neg5 sigFirstEnv 1
    ((-10 : Int), Ev.openCap 0 true :: Ev.openCap 1 true ::
      ([] ++ cleanupEvents)) rfl
